import Mathlib

/- Verification of the retry-with-fallback completion pipeline of
   examples/vscode_llm_example_full.py (copilot-proxy v0.0.2): the functions
   call_vscode_llm, call_anthropic_fallback and call_llm_with_fallback.
   The HTTP layer is abstracted as the sequence of replies the primary
   backend gives to the successive attempts, and the Anthropic SDK call as
   the behaviour it would exhibit if issued; all control flow, error
   classification, retry counting and backoff arithmetic of the source is
   reproduced. -/

/-- Number of primary attempts: the constant VSCODE_MAX_RETRIES of the source. -/
def VSCODE_MAX_RETRIES : Nat := 3

/-- Lowercasing of a character sequence, modelling str.lower() as applied to
the error bodies involved in content-filter detection. -/
def pyLowerData (cs : List Char) : List Char := cs.map Char.toLower

/-- Python's substring operator (needle in hay) on character sequences:
scan every suffix of the haystack for the needle as a leading segment. -/
def pySubstr (needle : List Char) : List Char → Bool
  | [] => needle.isEmpty
  | c :: t => needle.isPrefixOf (c :: t) || pySubstr needle t

/-- A message object of a choice; content is none when the JSON key named
content is absent, in which case the source's subscript raises KeyError. -/
structure Message where
  content : Option String
  deriving DecidableEq

/-- A choice of the chat-completion response; message is none when the key
named message is absent. -/
structure Choice where
  message : Option Message
  deriving DecidableEq

/-- Parsed JSON body of a 200 response: the choices array. An empty list
also covers a missing or null choices key, which the source's
data.get check treats identically (all are falsy). -/
structure RespData where
  choices : List Choice
  deriving DecidableEq

/-- One primary-backend reply: a transport failure (aiohttp.ClientError
raised by the request) or an HTTP response with its status, raw body text
and parsed JSON data. -/
inductive Resp where
  | transport (msg : String)
  | response (status : Nat) (body : String) (data : RespData)
  deriving DecidableEq

/-- The closed error classification produced by one loop iteration of
call_vscode_llm: VSCodeLLMConnectionError, ContentFilteredError, the base
VSCodeLLMError carrying status and body (the protocol error), and
EmptyResponseError. -/
inductive BackendError where
  | connectionError (msg : String)
  | contentFiltered (body : String)
  | protocolError (status : Nat) (body : String)
  | emptyResponse (msg : String)
  deriving DecidableEq

/-- Outcome of the try block of one attempt: a returned content string, an
error caught by one of the three except clauses, or a KeyError escaping
every handler (raised by the subscript chain on a malformed 200 body,
since KeyError is not a VSCodeLLMError nor an aiohttp.ClientError). -/
inductive AttemptOutcome where
  | success (content : String)
  | failure (e : BackendError)
  | uncaught (msg : String)
  deriving DecidableEq

/-- Classification of a single attempt, mirroring the body of the retry
loop of call_vscode_llm (source lines 90 to 132): non-200 bodies containing
the substring filtered case-insensitively are ContentFiltered, other
non-200 responses are protocol errors, a 200 with falsy choices or falsy
first-choice content is EmptyResponse, a 200 whose first choice lacks the
message or content key raises KeyError, and otherwise the content is
returned. -/
def classifyAttempt : Resp → AttemptOutcome
  | Resp.transport msg => AttemptOutcome.failure (BackendError.connectionError msg)
  | Resp.response status body data =>
    if status ≠ 200 then
      if pySubstr "filtered".data (pyLowerData body.data) then
        AttemptOutcome.failure (BackendError.contentFiltered body)
      else
        AttemptOutcome.failure (BackendError.protocolError status body)
    else
      match data.choices with
      | [] => AttemptOutcome.failure (BackendError.emptyResponse "No choices in response")
      | c :: _ =>
        match c.message with
        | none => AttemptOutcome.uncaught "KeyError: message"
        | some m =>
          match m.content with
          | none => AttemptOutcome.uncaught "KeyError: content"
          | some content =>
            if content = "" then
              AttemptOutcome.failure (BackendError.emptyResponse "Empty content in response")
            else
              AttemptOutcome.success content

/-- Error raised out of call_vscode_llm: either the recorded last_error, or
the bare VSCodeLLMError raised on the final line when no attempt ever ran. -/
inductive VErr where
  | backend (e : BackendError)
  | generic (msg : String)
  deriving DecidableEq

/-- Result of call_vscode_llm: returned content, a raised VSCodeLLMError,
or an escaped KeyError. -/
inductive VOut where
  | ok (content : String)
  | err (e : VErr)
  | uncaught (msg : String)
  deriving DecidableEq

/-- Observable log of one call_vscode_llm run: how many primary requests
were issued and the backoff sleeps performed, in order, in seconds. -/
structure RunLog where
  attempts : Nat
  sleeps : List Nat
  deriving DecidableEq

/-- The retry loop of call_vscode_llm. The list holds the primary replies
to the successive attempts, one consumed per iteration; a is the absolute
attempt index (feeding the backoff exponent of source line 136) and
lastError the accumulator of the source. An empty tail means the current
attempt is the last one, in which case no backoff sleep follows a failure;
a success or an escaped KeyError leaves the loop at once. -/
def callVscodeGo (a : Nat) (lastError : Option BackendError) : List Resp → VOut × RunLog
  | [] =>
    (match lastError with
     | some e => VOut.err (VErr.backend e)
     | none => VOut.err (VErr.generic "All retries failed"), ⟨0, []⟩)
  | r :: rest =>
    match classifyAttempt r with
    | AttemptOutcome.success c => (VOut.ok c, ⟨1, []⟩)
    | AttemptOutcome.uncaught m => (VOut.uncaught m, ⟨1, []⟩)
    | AttemptOutcome.failure e =>
      if rest.isEmpty then
        (VOut.err (VErr.backend e), ⟨1, []⟩)
      else
        let next := callVscodeGo (a + 1) (some e) rest
        (next.1, ⟨next.2.attempts + 1, 2 ^ (a + 1) :: next.2.sleeps⟩)

/-- call_vscode_llm applied to the list of primary replies, one per loop
iteration; the list length plays the loop bound VSCODE_MAX_RETRIES. -/
def call_vscode_llm (responses : List Resp) : VOut × RunLog :=
  callVscodeGo 0 none responses

/-- Behaviour of the Anthropic SDK request of call_anthropic_fallback, were
one issued: a list of content blocks (some t is a block carrying a text
attribute t, none a block without one) or a raised SDK error. -/
inductive FbAttempt where
  | ok (blocks : List (Option String))
  | err (msg : String)
  deriving DecidableEq

/-- Result of call_anthropic_fallback: returned text, the ValueError raised
when the key is unset, or a propagated SDK error. -/
inductive FbOut where
  | ok (text : String)
  | valueError (msg : String)
  | err (msg : String)
  deriving DecidableEq

/-- Python truthiness of the ANTHROPIC_API_KEY environment value: present
and non-empty. -/
def keyTruthy : Option String → Bool
  | none => false
  | some s => !(s == "")

/-- Text extraction loop of call_anthropic_fallback: starting from the
empty string, append the text of every block that has one. -/
def extractText (blocks : List (Option String)) : String :=
  blocks.foldl (fun acc b => match b with | some t => acc ++ t | none => acc) ""

/-- call_anthropic_fallback: check the key's truthiness, then issue exactly
one SDK request. The second component counts the SDK requests actually
issued. -/
def call_anthropic_fallback (apiKey : Option String) (fb : FbAttempt) : FbOut × Nat :=
  if keyTruthy apiKey then
    match fb with
    | FbAttempt.ok blocks => (FbOut.ok (extractText blocks), 1)
    | FbAttempt.err m => (FbOut.err m, 1)
  else
    (FbOut.valueError "ANTHROPIC_API_KEY not set - cannot use fallback", 0)

/-- Which backend produced the returned text. -/
inductive Source where
  | PRIMARY
  | FALLBACK
  deriving DecidableEq

/-- Terminal outcome of call_llm_with_fallback: a returned completion, a
re-raised primary VSCodeLLMError, the fallback's ValueError or SDK error,
or an escaped KeyError. -/
inductive PipelineOut where
  | result (text : String) (source : Source)
  | errPrimary (e : VErr)
  | errFallbackValue (msg : String)
  | errFallback (msg : String)
  | uncaught (msg : String)
  deriving DecidableEq

/-- Observable log of one pipeline invocation. -/
structure PipeLog where
  primaryAttempts : Nat
  sleeps : List Nat
  fallbackCalls : Nat
  deriving DecidableEq

/-- call_llm_with_fallback: run call_vscode_llm; on a caught VSCodeLLMError
check the fallback flag, then the key, re-raising the primary error when
either check fails, and otherwise make the single fallback call whose
outcome surfaces directly. A KeyError is not a VSCodeLLMError, so it
propagates past the except clause untouched. -/
def call_llm_with_fallback (responses : List Resp) (fallbackEnabled : Bool)
    (apiKey : Option String) (fb : FbAttempt) : PipelineOut × PipeLog :=
  match call_vscode_llm responses with
  | (VOut.ok c, lg) => (PipelineOut.result c Source.PRIMARY, ⟨lg.attempts, lg.sleeps, 0⟩)
  | (VOut.uncaught m, lg) => (PipelineOut.uncaught m, ⟨lg.attempts, lg.sleeps, 0⟩)
  | (VOut.err e, lg) =>
    if !fallbackEnabled then
      (PipelineOut.errPrimary e, ⟨lg.attempts, lg.sleeps, 0⟩)
    else if !(keyTruthy apiKey) then
      (PipelineOut.errPrimary e, ⟨lg.attempts, lg.sleeps, 0⟩)
    else
      match call_anthropic_fallback apiKey fb with
      | (FbOut.ok t, n) => (PipelineOut.result t Source.FALLBACK, ⟨lg.attempts, lg.sleeps, n⟩)
      | (FbOut.valueError m, n) => (PipelineOut.errFallbackValue m, ⟨lg.attempts, lg.sleeps, n⟩)
      | (FbOut.err m, n) => (PipelineOut.errFallback m, ⟨lg.attempts, lg.sleeps, n⟩)

/-- Discriminator: the attempt classified as a caught failure. -/
def AttemptOutcome.isFailure : AttemptOutcome → Bool
  | AttemptOutcome.failure _ => true
  | _ => false

/-- Discriminator: the attempt raised an uncaught KeyError. -/
def AttemptOutcome.isUncaught : AttemptOutcome → Bool
  | AttemptOutcome.uncaught _ => true
  | _ => false

/-- Discriminator: the pipeline returned a completion. -/
def PipelineOut.isResult : PipelineOut → Bool
  | PipelineOut.result _ _ => true
  | _ => false

/-- Whether a terminal pipeline outcome belongs to the five-kind taxonomy
ConnectionError, ContentFiltered, EmptyResponse, ProtocolError,
FallbackUnavailable. Only a re-raised classified primary error does: the
code never constructs a FallbackUnavailable, the fallback's raw SDK error
and its ValueError are vendor exceptions outside the taxonomy, a bare
VSCodeLLMError carries no classification, and an escaped KeyError is no
VSCodeLLMError at all. -/
def PipelineOut.inTaxonomy : PipelineOut → Bool
  | PipelineOut.errPrimary (VErr.backend _) => true
  | _ => false

/-- Every primary reply within the budget classifies as a caught failure. -/
def allFail (rs : List Resp) : Prop :=
  ∀ r ∈ rs, (classifyAttempt r).isFailure = true

/-- No primary reply within the budget is a malformed 200 body that would
raise an uncaught KeyError. -/
def wellFormedRun (rs : List Resp) : Prop :=
  ∀ r ∈ rs, (classifyAttempt r).isUncaught = false

/-- The primary backend succeeds within the budget: some attempt classifies
as a success and every earlier attempt classifies as a caught failure. -/
def primarySucceeds (rs : List Resp) : Prop :=
  ∃ pre s rest c, rs = pre ++ s :: rest ∧ allFail pre ∧
    classifyAttempt s = AttemptOutcome.success c

/-- Classification of the last reply within the budget, when it is a
caught failure: the value call_vscode_llm's last_error holds after a fully
failed run. -/
def lastBackendErr (rs : List Resp) : Option BackendError :=
  match rs.getLast? with
  | some r =>
    match classifyAttempt r with
    | AttemptOutcome.failure e => some e
    | _ => none
  | none => none

/-- An attempt whose discriminator says failure is a failure. -/
lemma exists_of_isFailure (o : AttemptOutcome) (h : o.isFailure = true) :
    ∃ e, o = AttemptOutcome.failure e := by
  cases o with
  | failure e => exact ⟨e, rfl⟩
  | success c => simp [AttemptOutcome.isFailure] at h
  | uncaught m => simp [AttemptOutcome.isFailure] at h

/-- The scanning substring check agrees with the abstract contiguous
sublist relation. -/
lemma pySubstr_eq_true_iff (n : List Char) : ∀ h : List Char,
    pySubstr n h = true ↔ n <:+: h := by
  intro h
  induction h with
  | nil =>
    simp [pySubstr, List.isEmpty_iff, List.infix_nil]
  | cons c t ih =>
    simp [pySubstr, Bool.or_eq_true, ih, List.isPrefixOf_iff_prefix,
      List.infix_cons_iff]

/-- Peeling one entry off an exponential backoff schedule. -/
lemma range_map_pow_succ (a m : Nat) :
    (List.range (m + 1)).map (fun i => (2:Nat) ^ (a + i + 1)) =
      2 ^ (a + 1) :: (List.range m).map (fun i => (2:Nat) ^ (a + 1 + i + 1)) := by
  rw [List.range_succ_eq_map, List.map_cons, List.map_map]
  refine congrArg₂ List.cons (by norm_num) ?_
  apply List.map_congr_left
  intro i _
  simp only [Function.comp_apply, Nat.succ_eq_add_one]
  congr 1
  omega

/-- One-step unfolding of the loop when the head attempt fails. -/
lemma callVscodeGo_cons_failure (a : Nat) (le : Option BackendError) (r : Resp)
    (rest : List Resp) (e : BackendError)
    (h : classifyAttempt r = AttemptOutcome.failure e) :
    callVscodeGo a le (r :: rest) =
      if rest.isEmpty then (VOut.err (VErr.backend e), ⟨1, []⟩)
      else ((callVscodeGo (a + 1) (some e) rest).1,
            ⟨(callVscodeGo (a + 1) (some e) rest).2.attempts + 1,
             2 ^ (a + 1) :: (callVscodeGo (a + 1) (some e) rest).2.sleeps⟩) := by
  simp [callVscodeGo, h]

/-- One-step unfolding of the loop when the head attempt succeeds. -/
lemma callVscodeGo_cons_success (a : Nat) (le : Option BackendError) (r : Resp)
    (rest : List Resp) (c : String)
    (h : classifyAttempt r = AttemptOutcome.success c) :
    callVscodeGo a le (r :: rest) = (VOut.ok c, ⟨1, []⟩) := by
  simp [callVscodeGo, h]

/-- One-step unfolding of the loop when the head attempt raises an
uncaught KeyError. -/
lemma callVscodeGo_cons_uncaught (a : Nat) (le : Option BackendError) (r : Resp)
    (rest : List Resp) (m : String)
    (h : classifyAttempt r = AttemptOutcome.uncaught m) :
    callVscodeGo a le (r :: rest) = (VOut.uncaught m, ⟨1, []⟩) := by
  simp [callVscodeGo, h]

/-- A run in which every attempt classifies as a caught failure consumes
the whole budget, sleeps the full exponential schedule, and raises the
classification of the final attempt. -/
lemma callVscodeGo_all_fail : ∀ (rs : List Resp) (a : Nat)
    (le : Option BackendError) (e : BackendError),
    allFail rs → lastBackendErr rs = some e →
    callVscodeGo a le rs =
      (VOut.err (VErr.backend e),
       ⟨rs.length, (List.range (rs.length - 1)).map fun i => 2 ^ (a + i + 1)⟩) := by
  intro rs
  induction rs with
  | nil => intro a le e _ hlast; simp [lastBackendErr] at hlast
  | cons r rest ih =>
    intro a le e hall hlast
    obtain ⟨e0, he0⟩ := exists_of_isFailure _ (hall r (by simp))
    cases rest with
    | nil =>
      have he : e0 = e := by
        simp [lastBackendErr, he0] at hlast
        exact hlast
      subst he
      rw [callVscodeGo_cons_failure a le r [] e0 he0]
      simp
    | cons r2 t =>
      have hlast2 : lastBackendErr (r2 :: t) = some e := by
        simpa [lastBackendErr, List.getLast?_cons_cons] using hlast
      have hall2 : allFail (r2 :: t) := fun x hx => hall x (by simp [hx])
      have hrec := ih (a + 1) (some e0) e hall2 hlast2
      rw [callVscodeGo_cons_failure a le r (r2 :: t) e0 he0, if_neg (by simp), hrec]
      simp [range_map_pow_succ a t.length]

/-- A run whose first non-failing attempt is a success returns its content
at that attempt, with one request per consumed reply and one backoff sleep
after every failed attempt. -/
lemma callVscodeGo_success : ∀ (pre : List Resp) (s : Resp) (rest : List Resp)
    (a : Nat) (le : Option BackendError) (c : String),
    allFail pre → classifyAttempt s = AttemptOutcome.success c →
    callVscodeGo a le (pre ++ s :: rest) =
      (VOut.ok c,
       ⟨pre.length + 1, (List.range pre.length).map fun i => 2 ^ (a + i + 1)⟩) := by
  intro pre
  induction pre with
  | nil => intro s rest a le c _ hs; simp [callVscodeGo_cons_success _ _ _ _ _ hs]
  | cons p pre ih =>
    intro s rest a le c hall hs
    obtain ⟨e0, he0⟩ := exists_of_isFailure _ (hall p (by simp))
    have hne : ¬ ((pre ++ s :: rest).isEmpty = true) := by
      cases pre <;> simp
    have hrec := ih s rest (a + 1) (some e0) c
      (fun x hx => hall x (by simp [hx])) hs
    rw [List.cons_append, callVscodeGo_cons_failure a le p (pre ++ s :: rest) e0 he0,
      if_neg hne, hrec]
    simp [range_map_pow_succ a pre.length]

/-- Either every reply classifies as a caught failure, or the list splits
at a first attempt that does not. -/
lemma allFail_or_first_non_failure : ∀ rs : List Resp,
    allFail rs ∨ ∃ pre s rest, rs = pre ++ s :: rest ∧ allFail pre ∧
      (classifyAttempt s).isFailure = false := by
  intro rs
  induction rs with
  | nil => exact Or.inl (fun r hr => by simp at hr)
  | cons r t ih =>
    cases hb : (classifyAttempt r).isFailure with
    | false =>
      exact Or.inr ⟨[], r, t, rfl, fun x hx => by simp at hx, hb⟩
    | true =>
      cases ih with
      | inl h =>
        refine Or.inl (fun x hx => ?_)
        rcases List.mem_cons.mp hx with h1 | h2
        · rw [h1]; exact hb
        · exact h x h2
      | inr h =>
        obtain ⟨pre, s, rest, heq, hpre, hs⟩ := h
        refine Or.inr ⟨r :: pre, s, rest, by simp [heq], ?_, hs⟩
        intro x hx
        rcases List.mem_cons.mp hx with h1 | h2
        · rw [h1]; exact hb
        · exact hpre x h2

/-- A nonempty fully failing budget determines a recorded last error. -/
lemma lastBackendErr_of_allFail (rs : List Resp) (hne : rs ≠ [])
    (h : allFail rs) : ∃ e, lastBackendErr rs = some e := by
  obtain ⟨e, he⟩ := exists_of_isFailure _ (h (rs.getLast hne) (List.getLast_mem hne))
  refine ⟨e, ?_⟩
  simp [lastBackendErr, List.getLast?_eq_getLast_of_ne_nil hne, he]

/-- A fully failing budget contains no successful attempt. -/
lemma not_primarySucceeds_of_allFail (rs : List Resp) (h : allFail rs) :
    ¬ primarySucceeds rs := by
  rintro ⟨pre, s, rest, c, heq, -, hs⟩
  have hmem : s ∈ rs := by rw [heq]; simp
  have := h s hmem
  rw [hs] at this
  simp [AttemptOutcome.isFailure] at this

/-- Outcome of the pipeline in each configuration, once the primary run is
known to raise a VSCodeLLMError. -/
lemma pipeline_err_cases (rs : List Resp) (enabled : Bool) (key : Option String)
    (fb : FbAttempt) (e : VErr) (lg : RunLog)
    (h : call_vscode_llm rs = (VOut.err e, lg)) :
    (enabled = false →
      call_llm_with_fallback rs enabled key fb =
        (PipelineOut.errPrimary e, ⟨lg.attempts, lg.sleeps, 0⟩)) ∧
    (keyTruthy key = false →
      call_llm_with_fallback rs enabled key fb =
        (PipelineOut.errPrimary e, ⟨lg.attempts, lg.sleeps, 0⟩)) ∧
    (enabled = true → keyTruthy key = true → ∀ bs, fb = FbAttempt.ok bs →
      call_llm_with_fallback rs enabled key fb =
        (PipelineOut.result (extractText bs) Source.FALLBACK,
         ⟨lg.attempts, lg.sleeps, 1⟩)) ∧
    (enabled = true → keyTruthy key = true → ∀ m, fb = FbAttempt.err m →
      call_llm_with_fallback rs enabled key fb =
        (PipelineOut.errFallback m, ⟨lg.attempts, lg.sleeps, 1⟩)) := by
  refine ⟨?_, ?_, ?_, ?_⟩
  · intro hen
    subst hen
    simp [call_llm_with_fallback, h]
  · intro hk
    cases enabled <;> simp [call_llm_with_fallback, h, hk]
  · intro hen hk bs hfb
    subst hen; subst hfb
    simp [call_llm_with_fallback, h, hk, call_anthropic_fallback]
  · intro hen hk m hfb
    subst hen; subst hfb
    simp [call_llm_with_fallback, h, hk, call_anthropic_fallback]

instance (rs : List Resp) : Decidable (allFail rs) :=
  List.decidableBAll _ rs

instance (rs : List Resp) : Decidable (wellFormedRun rs) :=
  List.decidableBAll _ rs

/-- C2: with the retry budget holding N primary replies (max_retries = N,
N at least 1), a primary backend that fails with a transport error on
every attempt is issued exactly N requests before fallback is evaluated,
no fewer and no more. -/
theorem c2_exact_attempts (rs : List Resp) (enabled : Bool) (key : Option String)
    (fb : FbAttempt) (hne : rs ≠ [])
    (htr : ∀ r ∈ rs, ∃ m, r = Resp.transport m) :
    (call_llm_with_fallback rs enabled key fb).2.primaryAttempts = rs.length := by
  have hall : allFail rs := by
    intro r hr
    obtain ⟨m, hm⟩ := htr r hr
    rw [hm]
    rfl
  obtain ⟨e, hlast⟩ := lastBackendErr_of_allFail rs hne hall
  have h : call_vscode_llm rs = _ := callVscodeGo_all_fail rs 0 none e hall hlast
  obtain ⟨h1, h2, h3, h4⟩ := pipeline_err_cases rs enabled key fb _ _ h
  cases enabled with
  | false => rw [h1 rfl]
  | true =>
    cases hk : keyTruthy key with
    | false => rw [h2 hk]
    | true =>
      cases fb with
      | ok bs => rw [h3 rfl hk bs rfl]
      | err m => rw [h4 rfl hk m rfl]

/-- Witness for C2 at a concrete three-reply all-transport-failure run. -/
theorem c2_exact_attempts_witness :
    (call_llm_with_fallback [Resp.transport "a", Resp.transport "b", Resp.transport "c"]
      true none (FbAttempt.err "e")).2.primaryAttempts = 3 :=
  c2_exact_attempts [Resp.transport "a", Resp.transport "b", Resp.transport "c"]
    true none (FbAttempt.err "e") (by decide)
    (by
      intro r hr
      simp only [List.mem_cons, List.not_mem_nil, or_false] at hr
      rcases hr with h | h | h <;> exact ⟨_, h⟩)

/-- C3: if every reply before attempt k classifies as a caught failure and
the reply at attempt k is an HTTP 200 whose first choice has non-empty
content, the pipeline returns that content immediately with source
PRIMARY: exactly k+1 primary requests, backoff sleeps only between the
failed attempts and none after the success, and no fallback call. -/
theorem c3_primary_success_short_circuits (pre : List Resp) (body c : String)
    (more : List Choice) (rest : List Resp) (enabled : Bool) (key : Option String)
    (fb : FbAttempt) (hpre : allFail pre) (hc : c ≠ "") :
    call_llm_with_fallback
        (pre ++ Resp.response 200 body ⟨⟨some ⟨some c⟩⟩ :: more⟩ :: rest)
        enabled key fb =
      (PipelineOut.result c Source.PRIMARY,
       ⟨pre.length + 1, (List.range pre.length).map fun i => 2 ^ (i + 1), 0⟩) := by
  have hs : classifyAttempt (Resp.response 200 body ⟨⟨some ⟨some c⟩⟩ :: more⟩) =
      AttemptOutcome.success c := by
    simp [classifyAttempt, hc]
  have hgo := callVscodeGo_success pre _ rest 0 none c hpre hs
  unfold call_llm_with_fallback
  rw [show call_vscode_llm
      (pre ++ Resp.response 200 body ⟨⟨some ⟨some c⟩⟩ :: more⟩ :: rest) =
    (VOut.ok c,
     ⟨pre.length + 1, (List.range pre.length).map fun i => 2 ^ (0 + i + 1)⟩) from hgo]
  simp

/-- Witness for C3: one transport failure, then a 200 with content. -/
theorem c3_primary_success_short_circuits_witness :
    call_llm_with_fallback
        [Resp.transport "boom", Resp.response 200 "" ⟨[⟨some ⟨some "four"⟩⟩]⟩]
        true (some "k") (FbAttempt.ok [some "unused"]) =
      (PipelineOut.result "four" Source.PRIMARY, ⟨2, [2], 0⟩) :=
  c3_primary_success_short_circuits [Resp.transport "boom"] "" "four" [] []
    true (some "k") (FbAttempt.ok [some "unused"]) (by decide) (by decide)

/-- C4: in a fully failing run over N replies, the backoff sleep inserted
before attempt i+1 equals 2 ^ (i+1) seconds for i = 0 .. N-2 (the source
hard-codes the base 2 of the spec's backoff_base_seconds), and no sleep
follows the last attempt: the schedule is exactly the N-1 values 2, 4, 8
and so on, in order. -/
theorem c4_backoff_schedule (rs : List Resp) (enabled : Bool) (key : Option String)
    (fb : FbAttempt) (hne : rs ≠ []) (hall : allFail rs) :
    (call_llm_with_fallback rs enabled key fb).2.sleeps =
      (List.range (rs.length - 1)).map fun i => 2 ^ (i + 1) := by
  obtain ⟨e, hlast⟩ := lastBackendErr_of_allFail rs hne hall
  have h : call_vscode_llm rs = _ := callVscodeGo_all_fail rs 0 none e hall hlast
  obtain ⟨h1, h2, h3, h4⟩ := pipeline_err_cases rs enabled key fb _ _ h
  have hsl : ((List.range (rs.length - 1)).map fun i => (2:Nat) ^ (0 + i + 1)) =
      (List.range (rs.length - 1)).map fun i => (2:Nat) ^ (i + 1) := by simp
  cases enabled with
  | false => rw [h1 rfl]; exact hsl
  | true =>
    cases hk : keyTruthy key with
    | false => rw [h2 hk]; exact hsl
    | true =>
      cases fb with
      | ok bs => rw [h3 rfl hk bs rfl]; exact hsl
      | err m => rw [h4 rfl hk m rfl]; exact hsl

/-- Witness for C4: three transport failures sleep 2 then 4 seconds. -/
theorem c4_backoff_schedule_witness :
    (call_llm_with_fallback [Resp.transport "a", Resp.transport "b", Resp.transport "c"]
      false none (FbAttempt.err "e")).2.sleeps = [2, 4] :=
  c4_backoff_schedule [Resp.transport "a", Resp.transport "b", Resp.transport "c"]
    false none (FbAttempt.err "e") (by decide) (by decide)

/-- C5: a non-200 response whose body contains the substring filtered
case-insensitively always classifies as ContentFiltered and never as any
ProtocolError; a non-200 body without it classifies as the ProtocolError
carrying the status and body. -/
theorem c5_filtered_classification (status : Nat) (body : String) (data : RespData)
    (hs : status ≠ 200) :
    (("filtered".data <:+: pyLowerData body.data) →
      classifyAttempt (Resp.response status body data) =
        AttemptOutcome.failure (BackendError.contentFiltered body) ∧
      ∀ st2 bd2, classifyAttempt (Resp.response status body data) ≠
        AttemptOutcome.failure (BackendError.protocolError st2 bd2)) ∧
    (¬ ("filtered".data <:+: pyLowerData body.data) →
      classifyAttempt (Resp.response status body data) =
        AttemptOutcome.failure (BackendError.protocolError status body)) := by
  constructor
  · intro h
    have hb : pySubstr "filtered".data (pyLowerData body.data) = true :=
      (pySubstr_eq_true_iff _ _).mpr h
    constructor
    · simp [classifyAttempt, hs, hb]
    · intro st2 bd2
      simp [classifyAttempt, hs, hb]
  · intro h
    have hb : pySubstr "filtered".data (pyLowerData body.data) = false := by
      cases hx : pySubstr "filtered".data (pyLowerData body.data)
      · rfl
      · exact absurd ((pySubstr_eq_true_iff _ _).mp hx) h
    simp [classifyAttempt, hs, hb]

/-- Witness for C5 at a 503 with a mixed-case filtered body. -/
theorem c5_filtered_classification_witness :
    classifyAttempt (Resp.response 503 "Request FILTERED by policy" ⟨[]⟩) =
      AttemptOutcome.failure (BackendError.contentFiltered "Request FILTERED by policy") :=
  ((c5_filtered_classification 503 "Request FILTERED by policy" ⟨[]⟩
    (by decide)).1 (by decide)).1

/-- C6: when fallback is enabled, the key is configured and every primary
attempt fails, exactly one secondary request is issued; a fallback success
returns its extracted text with source FALLBACK, and a fallback failure
surfaces exactly that failure, with no retry of the secondary. -/
theorem c6_single_fallback_call (rs : List Resp) (key : Option String) (fb : FbAttempt)
    (hne : rs ≠ []) (hall : allFail rs) (hk : keyTruthy key = true) :
    (call_llm_with_fallback rs true key fb).2.fallbackCalls = 1 ∧
    (∀ bs, fb = FbAttempt.ok bs →
      (call_llm_with_fallback rs true key fb).1 =
        PipelineOut.result (extractText bs) Source.FALLBACK) ∧
    (∀ m, fb = FbAttempt.err m →
      (call_llm_with_fallback rs true key fb).1 = PipelineOut.errFallback m) := by
  obtain ⟨e, hlast⟩ := lastBackendErr_of_allFail rs hne hall
  have h : call_vscode_llm rs = _ := callVscodeGo_all_fail rs 0 none e hall hlast
  obtain ⟨h1, h2, h3, h4⟩ := pipeline_err_cases rs true key fb _ _ h
  cases fb with
  | ok bs =>
    rw [h3 rfl hk bs rfl]
    refine ⟨rfl, ?_, ?_⟩
    · intro bs2 hb
      cases hb
      rfl
    · intro m hm
      exact FbAttempt.noConfusion hm
  | err m =>
    rw [h4 rfl hk m rfl]
    refine ⟨rfl, ?_, ?_⟩
    · intro bs2 hb
      exact FbAttempt.noConfusion hb
    · intro m2 hm
      cases hm
      rfl

/-- Witness for C6 with a failing primary and a succeeding fallback. -/
theorem c6_single_fallback_call_witness :
    (call_llm_with_fallback [Resp.transport "x"] true (some "k")
      (FbAttempt.ok [some "t"])).2.fallbackCalls = 1 ∧
    (∀ bs, FbAttempt.ok [some "t"] = FbAttempt.ok bs →
      (call_llm_with_fallback [Resp.transport "x"] true (some "k")
        (FbAttempt.ok [some "t"])).1 =
        PipelineOut.result (extractText bs) Source.FALLBACK) ∧
    (∀ m, FbAttempt.ok [some "t"] = FbAttempt.err m →
      (call_llm_with_fallback [Resp.transport "x"] true (some "k")
        (FbAttempt.ok [some "t"])).1 = PipelineOut.errFallback m) :=
  c6_single_fallback_call [Resp.transport "x"] (some "k") (FbAttempt.ok [some "t"])
    (by decide) (by decide) (by decide)

/-- C7: when every primary attempt fails and fallback is disabled or the
key is not configured, no secondary call is made and the pipeline
surfaces the last classified primary BackendError. -/
theorem c7_no_fallback_surfaces_last_error (rs : List Resp) (enabled : Bool)
    (key : Option String) (fb : FbAttempt) (e : BackendError)
    (hall : allFail rs) (hlast : lastBackendErr rs = some e)
    (hoff : enabled = false ∨ keyTruthy key = false) :
    (call_llm_with_fallback rs enabled key fb).1 =
      PipelineOut.errPrimary (VErr.backend e) ∧
    (call_llm_with_fallback rs enabled key fb).2.fallbackCalls = 0 := by
  have h : call_vscode_llm rs = _ := callVscodeGo_all_fail rs 0 none e hall hlast
  obtain ⟨h1, h2, _, _⟩ := pipeline_err_cases rs enabled key fb _ _ h
  rcases hoff with ho | ho
  · rw [h1 ho]
    exact ⟨rfl, rfl⟩
  · rw [h2 ho]
    exact ⟨rfl, rfl⟩

/-- Witness for C7: fallback disabled, the connection error of the last
attempt surfaces. -/
theorem c7_no_fallback_surfaces_last_error_witness :
    (call_llm_with_fallback [Resp.transport "x"] false (some "k")
      (FbAttempt.ok [])).1 =
      PipelineOut.errPrimary (VErr.backend (BackendError.connectionError "x")) ∧
    (call_llm_with_fallback [Resp.transport "x"] false (some "k")
      (FbAttempt.ok [])).2.fallbackCalls = 0 :=
  c7_no_fallback_surfaces_last_error [Resp.transport "x"] false (some "k")
    (FbAttempt.ok []) (BackendError.connectionError "x")
    (by decide) (by decide) (Or.inl rfl)

/-- C8: a 200 response with no choices, or whose first choice carries an
empty content string, classifies as EmptyResponse; concretely, with a
budget of 2 replies both 200 with empty content and fallback disabled,
the pipeline terminates with that EmptyResponse after exactly 2 attempts
and a single 2 second backoff between them. -/
theorem c8_empty_response_scenario :
    (∀ body : String, classifyAttempt (Resp.response 200 body ⟨[]⟩) =
      AttemptOutcome.failure (BackendError.emptyResponse "No choices in response")) ∧
    (∀ (body : String) (more : List Choice),
      classifyAttempt (Resp.response 200 body ⟨⟨some ⟨some ""⟩⟩ :: more⟩) =
        AttemptOutcome.failure (BackendError.emptyResponse "Empty content in response")) ∧
    call_llm_with_fallback
        [Resp.response 200 "" ⟨[⟨some ⟨some ""⟩⟩]⟩,
         Resp.response 200 "" ⟨[⟨some ⟨some ""⟩⟩]⟩]
        false none (FbAttempt.err "unused") =
      (PipelineOut.errPrimary
        (VErr.backend (BackendError.emptyResponse "Empty content in response")),
       ⟨2, [2], 0⟩) :=
  ⟨fun _ => rfl, fun _ _ => rfl, by decide⟩

/-- C10: a well-formed HTTP 200 reply whose first choice lacks the message
key (or whose message lacks the content key) makes the content extraction
raise a KeyError that no handler of the retry loop catches and that is not
classified EmptyResponse; with the first of VSCODE_MAX_RETRIES replies
malformed this way, the run stops after a single attempt with the escaped
KeyError, with no backoff, no further primary attempts and no fallback
call even though fallback is enabled, configured and would succeed. -/
theorem c10_keyerror_escapes :
    classifyAttempt (Resp.response 200 "" ⟨[⟨none⟩]⟩) =
      AttemptOutcome.uncaught "KeyError: message" ∧
    classifyAttempt (Resp.response 200 "" ⟨[⟨some ⟨none⟩⟩]⟩) =
      AttemptOutcome.uncaught "KeyError: content" ∧
    call_llm_with_fallback
        [Resp.response 200 "" ⟨[⟨none⟩]⟩, Resp.transport "later", Resp.transport "later2"]
        true (some "key") (FbAttempt.ok [some "fallback answer"]) =
      (PipelineOut.uncaught "KeyError: message", ⟨1, [], 0⟩) :=
  ⟨rfl, rfl, by decide⟩

/-- The three malformed 200 replies of the counterexample runs: every
first choice lacks the message key. -/
def cexReplies : List Resp :=
  [Resp.response 200 "" ⟨[⟨none⟩]⟩, Resp.response 200 "" ⟨[⟨none⟩]⟩,
   Resp.response 200 "" ⟨[⟨none⟩]⟩]

/-- C1 counterexample: with every primary reply a 200 body whose first
choice lacks the message key, fallback enabled, the key configured and a
fallback attempt that would succeed, the invocation returns no completion
result, yet it also surfaces no terminal error wrapping a BackendError:
the escaped KeyError refutes both directions of the claimed equivalence. -/
theorem c1_result_iff_counterexample :
    (call_llm_with_fallback cexReplies true (some "key")
        (FbAttempt.ok [some "fallback answer"])).1 =
      PipelineOut.uncaught "KeyError: message" ∧
    (true = true ∧ keyTruthy (some "key") = true ∧
      ∃ bs, FbAttempt.ok [some "fallback answer"] = FbAttempt.ok bs) ∧
    ¬ (∃ t s, (call_llm_with_fallback cexReplies true (some "key")
        (FbAttempt.ok [some "fallback answer"])).1 = PipelineOut.result t s) ∧
    ¬ (∃ e, (call_llm_with_fallback cexReplies true (some "key")
        (FbAttempt.ok [some "fallback answer"])).1 =
          PipelineOut.errPrimary (VErr.backend e)) := by
  have hout : (call_llm_with_fallback cexReplies true (some "key")
      (FbAttempt.ok [some "fallback answer"])).1 =
      PipelineOut.uncaught "KeyError: message" := by decide
  refine ⟨hout, ⟨rfl, by decide, ⟨[some "fallback answer"], rfl⟩⟩, ?_, ?_⟩
  · rintro ⟨t, s, ht⟩
    rw [hout] at ht
    exact PipelineOut.noConfusion ht
  · rintro ⟨e, he⟩
    rw [hout] at he
    exact PipelineOut.noConfusion he

/-- C1 amended: provided every primary reply within the budget is
well-formed (none raises the uncaught KeyError of a malformed 200 body), a
completion result is returned if and only if the primary backend succeeds
within the retry budget or fallback is enabled, configured and the single
fallback attempt would succeed; and every non-returning invocation
surfaces either the last classified primary BackendError or the fallback
attempt's own failure, never a silently substituted default answer. -/
theorem c1_result_iff_amended (rs : List Resp) (enabled : Bool) (key : Option String)
    (fb : FbAttempt) (hne : rs ≠ []) (hwf : wellFormedRun rs) :
    ((∃ t s, (call_llm_with_fallback rs enabled key fb).1 = PipelineOut.result t s) ↔
      (primarySucceeds rs ∨
        (enabled = true ∧ keyTruthy key = true ∧ ∃ bs, fb = FbAttempt.ok bs))) ∧
    ((∀ t s, (call_llm_with_fallback rs enabled key fb).1 ≠ PipelineOut.result t s) →
      (∃ e, lastBackendErr rs = some e ∧
        (call_llm_with_fallback rs enabled key fb).1 =
          PipelineOut.errPrimary (VErr.backend e)) ∨
      (∃ m, (call_llm_with_fallback rs enabled key fb).1 = PipelineOut.errFallback m)) := by
  rcases allFail_or_first_non_failure rs with hall | ⟨pre, s, rest, heq, hpre, hnf⟩
  · obtain ⟨e, hlast⟩ := lastBackendErr_of_allFail rs hne hall
    have h : call_vscode_llm rs = _ := callVscodeGo_all_fail rs 0 none e hall hlast
    obtain ⟨h1, h2, h3, h4⟩ := pipeline_err_cases rs enabled key fb _ _ h
    have hnp := not_primarySucceeds_of_allFail rs hall
    cases enabled with
    | false =>
      constructor
      · constructor
        · rintro ⟨t, s2, ht⟩
          rw [h1 rfl] at ht
          exact absurd ht (by simp)
        · rintro (hp | ⟨hen, -, -⟩)
          · exact absurd hp hnp
          · exact absurd hen (by simp)
      · intro _
        exact Or.inl ⟨e, hlast, by rw [h1 rfl]⟩
    | true =>
      cases hk : keyTruthy key with
      | false =>
        constructor
        · constructor
          · rintro ⟨t, s2, ht⟩
            rw [h2 hk] at ht
            exact absurd ht (by simp)
          · rintro (hp | ⟨-, hk2, -⟩)
            · exact absurd hp hnp
            · exact absurd hk2 (by simp)
        · intro _
          exact Or.inl ⟨e, hlast, by rw [h2 hk]⟩
      | true =>
        cases fb with
        | ok bs =>
          constructor
          · constructor
            · intro _
              exact Or.inr ⟨rfl, rfl, bs, rfl⟩
            · intro _
              exact ⟨extractText bs, Source.FALLBACK, by rw [h3 rfl hk bs rfl]⟩
          · intro hno
            exact absurd (show (call_llm_with_fallback rs true key (FbAttempt.ok bs)).1 =
                PipelineOut.result (extractText bs) Source.FALLBACK from
                by rw [h3 rfl hk bs rfl]) (hno _ _)
        | err m =>
          constructor
          · constructor
            · rintro ⟨t, s2, ht⟩
              rw [h4 rfl hk m rfl] at ht
              exact absurd ht (by simp)
            · rintro (hp | ⟨-, -, bs, hbs⟩)
              · exact absurd hp hnp
              · exact FbAttempt.noConfusion hbs
          · intro _
            exact Or.inr ⟨m, by rw [h4 rfl hk m rfl]⟩
  · have hsx : ∃ c, classifyAttempt s = AttemptOutcome.success c := by
      have hu : (classifyAttempt s).isUncaught = false := hwf s (by rw [heq]; simp)
      cases hcs : classifyAttempt s with
      | success c => exact ⟨c, rfl⟩
      | failure e => rw [hcs] at hnf; simp [AttemptOutcome.isFailure] at hnf
      | uncaught m => rw [hcs] at hu; simp [AttemptOutcome.isUncaught] at hu
    obtain ⟨c, hcs⟩ := hsx
    have hgo := callVscodeGo_success pre s rest 0 none c hpre hcs
    have hpipe : (call_llm_with_fallback rs enabled key fb).1 =
        PipelineOut.result c Source.PRIMARY := by
      rw [heq]
      unfold call_llm_with_fallback
      rw [show call_vscode_llm (pre ++ s :: rest) =
        (VOut.ok c,
         ⟨pre.length + 1, (List.range pre.length).map fun i => 2 ^ (0 + i + 1)⟩) from hgo]
    constructor
    · constructor
      · intro _
        exact Or.inl ⟨pre, s, rest, c, heq, hpre, hcs⟩
      · intro _
        exact ⟨c, Source.PRIMARY, hpipe⟩
    · intro hno
      exact absurd hpipe (hno _ _)

/-- Witness for the amended C1 at a one-reply succeeding primary run. -/
theorem c1_result_iff_amended_witness :
    ((∃ t s, (call_llm_with_fallback [Resp.response 200 "" ⟨[⟨some ⟨some "hi"⟩⟩]⟩]
        false none (FbAttempt.err "z")).1 = PipelineOut.result t s) ↔
      (primarySucceeds [Resp.response 200 "" ⟨[⟨some ⟨some "hi"⟩⟩]⟩] ∨
        (false = true ∧ keyTruthy none = true ∧
          ∃ bs, FbAttempt.err "z" = FbAttempt.ok bs))) ∧
    ((∀ t s, (call_llm_with_fallback [Resp.response 200 "" ⟨[⟨some ⟨some "hi"⟩⟩]⟩]
        false none (FbAttempt.err "z")).1 ≠ PipelineOut.result t s) →
      (∃ e, lastBackendErr [Resp.response 200 "" ⟨[⟨some ⟨some "hi"⟩⟩]⟩] = some e ∧
        (call_llm_with_fallback [Resp.response 200 "" ⟨[⟨some ⟨some "hi"⟩⟩]⟩]
          false none (FbAttempt.err "z")).1 =
          PipelineOut.errPrimary (VErr.backend e)) ∨
      (∃ m, (call_llm_with_fallback [Resp.response 200 "" ⟨[⟨some ⟨some "hi"⟩⟩]⟩]
        false none (FbAttempt.err "z")).1 = PipelineOut.errFallback m)) :=
  c1_result_iff_amended [Resp.response 200 "" ⟨[⟨some ⟨some "hi"⟩⟩]⟩]
    false none (FbAttempt.err "z") (by decide) (by decide)

/-- C9 counterexample: a run over three malformed 200 replies (fallback
enabled, key configured, fallback would succeed) returns no completion
result yet its terminal error, the escaped KeyError, lies outside the
closed five-kind taxonomy. -/
theorem c9_taxonomy_counterexample :
    (call_llm_with_fallback cexReplies true (some "key")
      (FbAttempt.ok [some "t"])).1.isResult = false ∧
    (call_llm_with_fallback cexReplies true (some "key")
      (FbAttempt.ok [some "t"])).1.inTaxonomy = false := by
  decide

/-- C9 amended: every invocation yields exactly one terminal outcome; when
every primary reply within the budget is well-formed, an invocation that
returns no completion result surfaces either a re-raised classified
primary BackendError (one of ConnectionError, ContentFiltered,
EmptyResponse, ProtocolError; the code never raises a distinct
FallbackUnavailable) or the secondary backend's own raw failure. -/
theorem c9_taxonomy_amended (rs : List Resp) (enabled : Bool) (key : Option String)
    (fb : FbAttempt) (hne : rs ≠ []) (hwf : wellFormedRun rs)
    (hnr : (call_llm_with_fallback rs enabled key fb).1.isResult = false) :
    (∃ e, (call_llm_with_fallback rs enabled key fb).1 =
      PipelineOut.errPrimary (VErr.backend e)) ∨
    (∃ m, (call_llm_with_fallback rs enabled key fb).1 = PipelineOut.errFallback m) := by
  rcases allFail_or_first_non_failure rs with hall | ⟨pre, s, rest, heq, hpre, hnf⟩
  · obtain ⟨e, hlast⟩ := lastBackendErr_of_allFail rs hne hall
    have h : call_vscode_llm rs = _ := callVscodeGo_all_fail rs 0 none e hall hlast
    obtain ⟨h1, h2, h3, h4⟩ := pipeline_err_cases rs enabled key fb _ _ h
    cases enabled with
    | false => exact Or.inl ⟨e, by rw [h1 rfl]⟩
    | true =>
      cases hk : keyTruthy key with
      | false => exact Or.inl ⟨e, by rw [h2 hk]⟩
      | true =>
        cases fb with
        | ok bs =>
          rw [h3 rfl hk bs rfl] at hnr
          exact absurd hnr (by simp [PipelineOut.isResult])
        | err m => exact Or.inr ⟨m, by rw [h4 rfl hk m rfl]⟩
  · have hsx : ∃ c, classifyAttempt s = AttemptOutcome.success c := by
      have hu : (classifyAttempt s).isUncaught = false := hwf s (by rw [heq]; simp)
      cases hcs : classifyAttempt s with
      | success c => exact ⟨c, rfl⟩
      | failure e => rw [hcs] at hnf; simp [AttemptOutcome.isFailure] at hnf
      | uncaught m => rw [hcs] at hu; simp [AttemptOutcome.isUncaught] at hu
    obtain ⟨c, hcs⟩ := hsx
    have hgo := callVscodeGo_success pre s rest 0 none c hpre hcs
    have hpipe : (call_llm_with_fallback rs enabled key fb).1 =
        PipelineOut.result c Source.PRIMARY := by
      rw [heq]
      unfold call_llm_with_fallback
      rw [show call_vscode_llm (pre ++ s :: rest) =
        (VOut.ok c,
         ⟨pre.length + 1, (List.range pre.length).map fun i => 2 ^ (0 + i + 1)⟩) from hgo]
    rw [hpipe] at hnr
    exact absurd hnr (by simp [PipelineOut.isResult])

/-- Witness for the amended C9 at a one-reply transport-failing run with
fallback disabled. -/
theorem c9_taxonomy_amended_witness :
    (∃ e, (call_llm_with_fallback [Resp.transport "x"] false none
      (FbAttempt.err "y")).1 = PipelineOut.errPrimary (VErr.backend e)) ∨
    (∃ m, (call_llm_with_fallback [Resp.transport "x"] false none
      (FbAttempt.err "y")).1 = PipelineOut.errFallback m) :=
  c9_taxonomy_amended [Resp.transport "x"] false none (FbAttempt.err "y")
    (by decide) (by decide) (by decide)
